import Mathlib

/-!
Shallow embedding of the code-frame renderer (src/lib.rs).

Machine integers are modelled as Nat with explicit wrapping where the
source performs operations that can leave the mathematical range:
usize subtraction wraps modulo 2 ^ 64 (release semantics), the
display-window start is computed through casts to 32-bit signed
integers exactly as the source writes
((start_line as i32) - (lines_above as i32)).max(0) as usize.
Fallible operations (slice indexing, slicing) return Option.
-/

def U32 : Nat := 2 ^ 32

def U64 : Nat := 2 ^ 64

/-- Wrapping usize subtraction (two's complement, release semantics). -/
def usub (a b : Nat) : Nat := (a + U64 - b) % U64

/-- The value of a usize cast to i32 (truncate to 32 bits, reinterpret signed). -/
def toI32 (n : Nat) : Int :=
  if n % U32 < 2 ^ 31 then ((n % U32 : Nat) : Int) else ((n % U32 : Nat) : Int) - (U32 : Int)

/-- Wrapping of a mathematical integer into the i32 range. -/
def wrap32 (x : Int) : Int := (x + 2 ^ 31) % (U32 : Int) - 2 ^ 31

/-- Translation of str::repeat for a single-character string. -/
def strRepeat (c : Char) (n : Nat) : String := String.mk (List.replicate n c)

structure Location where
  line : Nat
  column : Nat

structure NodeLocation where
  start : Location
  end_ : Location

structure CodeFrameOptions where
  lines_above : Nat
  lines_below : Nat

/-- The HashMap from line number to (start_col, len) is modelled as an
association list with unique keys, queried with List.lookup. -/
structure MarkerLines where
  start : Nat
  end_ : Nat
  marker_lines : List (Nat × Nat × Nat)

/-- Option-threaded map over a list of indices: none as soon as the body
fails (models a loop that can panic on an out-of-bounds index). -/
def optMap (f : Nat → Option (Nat × Nat × Nat)) : List Nat → Option (List (Nat × Nat × Nat))
  | [] => some []
  | i :: is =>
    match f i with
    | none => none
    | some a => (optMap f is).map (fun l => a :: l)

/-- The marker-construction loop of marker_lines (lib.rs lines 44-71).
Indexing lines[line_number] is modelled by the optional index lines[i]?,
failure propagating as none. -/
def marker_entries (lines : List String) (start_line start_col end_col line_diff : Nat) :
    Option (List (Nat × Nat × Nat)) :=
  if 0 < line_diff then
    optMap
      (fun i =>
        let line_number := i + start_line
        if i = 0 then
          lines[line_number]?.map (fun s => (line_number, start_col, usub s.length start_col))
        else if i = line_diff then
          some (line_number, 0, end_col)
        else
          lines[line_number]?.map (fun s => (line_number, 0, s.length)))
      (List.range (line_diff + 1))
  else
    if start_col = end_col then
      some [(start_line, start_col, 0)]
    else
      some [(start_line, start_col, usub end_col start_col)]

/-- Translation of marker_lines (lib.rs lines 28-78). -/
def marker_lines (lines : List String) (loc : NodeLocation) (options : CodeFrameOptions) :
    Option MarkerLines :=
  let lines_above := options.lines_above
  let lines_below := options.lines_below
  let start_line := loc.start.line
  let start_col := loc.start.column
  let end_line := loc.end_.line
  let end_col := loc.end_.column
  let start := (max (wrap32 (toI32 start_line - toI32 lines_above)) 0).toNat
  let stop := max (min lines.length ((end_line + lines_below) % U64)) 0
  let line_diff := usub end_line start_line
  (marker_entries lines start_line start_col end_col line_diff).map
    (fun m => { start := start, end_ := stop, marker_lines := m })

/-- The body of the rendering closure of code_frame (lib.rs lines 89-117),
producing the block emitted for one displayed line (a marked line's block
contains an embedded newline before its marker row). -/
def frame_line (max_line_number_width : Nat) (markers : List (Nat × Nat × Nat))
    (line_number : Nat) (line : String) : String :=
  let line_number_width := (Nat.repr line_number).length
  let line_number_padding := strRepeat ' ' (usub max_line_number_width line_number_width)
  match List.lookup line_number markers with
  | some (start_col, len) =>
    let marker := strRepeat '^' (max len 1)
    let marker_padding := strRepeat ' ' start_col
    let marker_line := marker_padding ++ marker ++ line_number_padding
    "> " ++ Nat.repr line_number ++ " | " ++ line ++ "\n" ++
      "  " ++ line_number_padding ++ " | " ++ marker_line
  | none => "  " ++ Nat.repr line_number ++ " | " ++ line

/-- Translation of Vec::join("\n"). -/
def join_lines : List String → String
  | [] => ""
  | s :: rest =>
    match rest with
    | [] => s
    | _ :: _ => s ++ "\n" ++ join_lines rest

/-- Translation of code_frame (lib.rs lines 80-121).  The slice
&lines[start..end] panics unless start ≤ end ≤ len; this is modelled by
the bounds test, failure returning none. -/
def code_frame (lines : List String) (loc : NodeLocation) (context_window : CodeFrameOptions) :
    Option String :=
  match marker_lines lines loc context_window with
  | none => none
  | some ml =>
    let max_line_number_width := (Nat.repr ml.end_).length + 1
    if ml.start ≤ ml.end_ ∧ ml.end_ ≤ lines.length then
      let context := (lines.drop ml.start).take (ml.end_ - ml.start)
      some (join_lines (context.enum.map
        (fun p => frame_line max_line_number_width ml.marker_lines (p.1 + ml.start) p.2)))
    else none

/-- The same rendering, block by block, each block given as its list of
rows (content row, then marker row when present). -/
def frame_line_rows (max_line_number_width : Nat) (markers : List (Nat × Nat × Nat))
    (line_number : Nat) (line : String) : List String :=
  let line_number_width := (Nat.repr line_number).length
  let line_number_padding := strRepeat ' ' (usub max_line_number_width line_number_width)
  match List.lookup line_number markers with
  | some (start_col, len) =>
    let marker := strRepeat '^' (max len 1)
    let marker_padding := strRepeat ' ' start_col
    let marker_line := marker_padding ++ marker ++ line_number_padding
    ["> " ++ Nat.repr line_number ++ " | " ++ line,
     "  " ++ line_number_padding ++ " | " ++ marker_line]
  | none => ["  " ++ Nat.repr line_number ++ " | " ++ line]

/-- The rows of the rendered frame, in order. -/
def code_frame_rows (lines : List String) (loc : NodeLocation)
    (context_window : CodeFrameOptions) : Option (List String) :=
  match marker_lines lines loc context_window with
  | none => none
  | some ml =>
    let max_line_number_width := (Nat.repr ml.end_).length + 1
    if ml.start ≤ ml.end_ ∧ ml.end_ ≤ lines.length then
      let context := (lines.drop ml.start).take (ml.end_ - ml.start)
      some (context.enum.flatMap
        (fun p => frame_line_rows max_line_number_width ml.marker_lines (p.1 + ml.start) p.2))
    else none

/-- Index of the separator bar character in a rendered row. -/
def sepIdx (s : String) : Nat := s.data.findIdx (fun c => c = '|')

/-- The run of digit characters at the gutter position of a row (after the
two-character indent), when nonempty. -/
def gutterDigits (s : String) : Option String :=
  let t := (s.data.drop 2).takeWhile Char.isDigit
  if t.isEmpty then none else some (String.mk t)

/-- Split a character list at newline characters (structural, used to
speak about the individual lines of a rendered frame). -/
def splitLinesData : List Char → List (List Char)
  | [] => [[]]
  | c :: rest =>
    let r := splitLinesData rest
    if c = '\n' then [] :: r
    else
      match r with
      | [] => [[c]]
      | h :: t => (c :: h) :: t

/-- The lines of a string, split at newline characters. -/
def splitLines (s : String) : List String := (splitLinesData s.data).map String.mk

/-! ## Arithmetic facts about the embedded integer operations -/

theorem usub_eq {a b : Nat} (h1 : b ≤ a) (h2 : a - b < 2 ^ 64) : usub a b = a - b := by
  unfold usub U64
  have h3 : a + 2 ^ 64 - b = (a - b) + 2 ^ 64 := by omega
  rw [h3, Nat.add_mod_right, Nat.mod_eq_of_lt h2]

theorem toI32_eq {n : Nat} (h : n < 2 ^ 31) : toI32 n = (n : Int) := by
  unfold toI32 U32
  rw [Nat.mod_eq_of_lt (show n < 2 ^ 32 by omega)]
  rw [if_pos h]

theorem wrap32_eq {x : Int} (h1 : -(2 ^ 31) ≤ x) (h2 : x < 2 ^ 31) : wrap32 x = x := by
  unfold wrap32 U32
  have h3 : (0 : Int) ≤ x + 2 ^ 31 := by omega
  have h4 : x + 2 ^ 31 < (((2 : Nat) ^ 32 : Nat) : Int) := by push_cast; omega
  rw [Int.emod_eq_of_lt h3 h4]
  omega

theorem start_val (sl la : Nat) (h1 : sl < 2 ^ 31) (h2 : la < 2 ^ 31) :
    (max (wrap32 (toI32 sl - toI32 la)) 0).toNat = sl - la := by
  rw [toI32_eq h1, toI32_eq h2]
  rw [wrap32_eq (by omega) (by omega)]
  omega

theorem stop_val (n el lb : Nat) (h : el + lb < 2 ^ 64) :
    max (min n ((el + lb) % U64)) 0 = min n (el + lb) := by
  unfold U64
  rw [Nat.mod_eq_of_lt h]
  omega

theorem marker_lines_start_end (lines : List String) (loc : NodeLocation)
    (opts : CodeFrameOptions) (ml : MarkerLines) (h : marker_lines lines loc opts = some ml) :
    ml.start = (max (wrap32 (toI32 loc.start.line - toI32 opts.lines_above)) 0).toNat ∧
    ml.end_ = max (min lines.length ((loc.end_.line + opts.lines_below) % U64)) 0 ∧
    marker_entries lines loc.start.line loc.start.column loc.end_.column
      (usub loc.end_.line loc.start.line) = some ml.marker_lines := by
  simp only [marker_lines, Option.map_eq_some'] at h
  obtain ⟨m, hm, he⟩ := h
  subst he
  exact ⟨rfl, rfl, hm⟩

/-! ## Claims about the display window (C1, C7, C9) and the error claims (C4, C5) -/

/-- C7: for every span and every magnitude of lines_above and lines_below,
the computed display range satisfies start ≥ 0 and end ≤ lines.length
(the end bound is min-clamped against the line count before any use). -/
theorem c7_window_clamp (lines : List String) (loc : NodeLocation) (opts : CodeFrameOptions)
    (ml : MarkerLines) (hml : marker_lines lines loc opts = some ml) :
    0 ≤ ml.start ∧ ml.end_ ≤ lines.length := by
  obtain ⟨-, he, -⟩ := marker_lines_start_end lines loc opts ml hml
  refine ⟨Nat.zero_le _, ?_⟩
  rw [he]
  omega

/-- Witness for c7_window_clamp at lines = ["a"], a point span at (0,0) and a
window far larger than the file. -/
theorem c7_window_clamp_witness :
    0 ≤ (MarkerLines.mk 0 1 [(0, (0, 0))]).start ∧
      (MarkerLines.mk 0 1 [(0, (0, 0))]).end_ ≤ (["a"] : List String).length :=
  c7_window_clamp ["a"] ⟨⟨0, 0⟩, ⟨0, 0⟩⟩ ⟨5, 9⟩ ⟨0, 1, [(0, (0, 0))]⟩ rfl

/-- C1 (amended): with lines_above = lines_below = 0 the display range is
[span.start.line, span.end.line), half open: every touched line except the
last is displayed, and span.end.line itself is excluded because the
exclusive display end equals span.end.line + lines_below; in particular a
single-line span displays no lines at all. -/
theorem c1_zero_window (lines : List String) (sl sc el ec : Nat) (ml : MarkerLines)
    (h1 : sl ≤ el) (h2 : el < lines.length) (h3 : sl < 2 ^ 31) (h4 : el < 2 ^ 64)
    (hml : marker_lines lines ⟨⟨sl, sc⟩, ⟨el, ec⟩⟩ ⟨0, 0⟩ = some ml) :
    ml.start = sl ∧ ml.end_ = el := by
  obtain ⟨hs, he, -⟩ := marker_lines_start_end _ _ _ _ hml
  constructor
  · rw [hs]
    show (max (wrap32 (toI32 sl - toI32 0)) 0).toNat = sl
    rw [start_val sl 0 h3 (by norm_num)]
    omega
  · rw [he]
    show max (min lines.length ((el + 0) % U64)) 0 = el
    rw [stop_val lines.length el 0 (by omega)]
    omega

/-- Witness for c1_zero_window at lines = ["a","b"], span (0,0)-(1,1). -/
theorem c1_zero_window_witness :
    (MarkerLines.mk 0 1 [(0, (0, 1)), (1, (0, 1))]).start = 0 ∧
      (MarkerLines.mk 0 1 [(0, (0, 1)), (1, (0, 1))]).end_ = 1 :=
  c1_zero_window ["a", "b"] 0 0 1 1 ⟨0, 1, [(0, (0, 1)), (1, (0, 1))]⟩
    (by decide) (by decide) (by decide) (by decide) rfl

/-- C1 counterexample: lines = ["ab"], span (0,0)-(0,1) touches line 0 only,
yet with a zero window the display range [0, 0) contains no line at all and
the rendered output is the empty string, so the touched line 0 is not
rendered, refuting the claim that exactly the touched lines are rendered. -/
theorem c1_zero_window_cex :
    (marker_lines ["ab"] ⟨⟨0, 0⟩, ⟨0, 1⟩⟩ ⟨0, 0⟩).map
        (fun ml => decide (ml.start ≤ 0 ∧ 0 < ml.end_)) = some false ∧
      code_frame ["ab"] ⟨⟨0, 0⟩, ⟨0, 1⟩⟩ ⟨0, 0⟩ = some "" :=
  ⟨rfl, rfl⟩

/-- C9 (amended): for spans with start.line ≤ end.line < lines.length the
display range satisfies start ≤ end ≤ lines.length and the slice taken by
code_frame is in bounds, provided start.line and lines_above are below
2 ^ 31 (the window start is computed through a cast to 32-bit signed
integers) and end.line + lines_below does not overflow a usize. -/
theorem c9_slice_in_bounds (lines : List String) (sl sc el ec la lb : Nat) (ml : MarkerLines)
    (h1 : sl ≤ el) (h2 : el < lines.length) (h3 : sl < 2 ^ 31) (h4 : la < 2 ^ 31)
    (h5 : el + lb < 2 ^ 64)
    (hml : marker_lines lines ⟨⟨sl, sc⟩, ⟨el, ec⟩⟩ ⟨la, lb⟩ = some ml) :
    ml.start ≤ ml.end_ ∧ ml.end_ ≤ lines.length ∧
      (code_frame lines ⟨⟨sl, sc⟩, ⟨el, ec⟩⟩ ⟨la, lb⟩).isSome = true := by
  obtain ⟨hs, he, -⟩ := marker_lines_start_end _ _ _ _ hml
  have hs2 : ml.start = sl - la := by
    rw [hs]
    show (max (wrap32 (toI32 sl - toI32 la)) 0).toNat = sl - la
    exact start_val sl la h3 h4
  have he2 : ml.end_ = min lines.length (el + lb) := by
    rw [he]
    show max (min lines.length ((el + lb) % U64)) 0 = min lines.length (el + lb)
    exact stop_val lines.length el lb h5
  have hle : ml.start ≤ ml.end_ := by rw [hs2, he2]; omega
  have hlen : ml.end_ ≤ lines.length := by rw [he2]; omega
  refine ⟨hle, hlen, ?_⟩
  simp only [code_frame, hml]
  rw [if_pos ⟨hle, hlen⟩]
  rfl

/-- Witness for c9_slice_in_bounds at lines = ["a","b"], span (0,0)-(1,1),
window (5,7). -/
theorem c9_slice_in_bounds_witness :
    (MarkerLines.mk 0 2 [(0, (0, 1)), (1, (0, 1))]).start ≤
        (MarkerLines.mk 0 2 [(0, (0, 1)), (1, (0, 1))]).end_ ∧
      (MarkerLines.mk 0 2 [(0, (0, 1)), (1, (0, 1))]).end_ ≤ (["a", "b"] : List String).length ∧
      (code_frame ["a", "b"] ⟨⟨0, 0⟩, ⟨1, 1⟩⟩ ⟨5, 7⟩).isSome = true :=
  c9_slice_in_bounds ["a", "b"] 0 0 1 1 5 7 ⟨0, 2, [(0, (0, 1)), (1, (0, 1))]⟩
    (by decide) (by decide) (by decide) (by decide) (by decide) rfl

/-- C9 counterexample: with lines = ["a"], the valid point span (0,0)-(0,0)
and lines_above = 2147483649 = 2 ^ 31 + 1, the i32 cast wraps and the
display start becomes 2147483647 while the display end is 0, so start > end
and slicing lines[start..end] fails (a panic in the Rust source, modelled
as none). -/
theorem c9_slice_in_bounds_cex :
    (marker_lines ["a"] ⟨⟨0, 0⟩, ⟨0, 0⟩⟩ ⟨2147483649, 0⟩).map
        (fun ml => decide (ml.start ≤ ml.end_)) = some false ∧
      code_frame ["a"] ⟨⟨0, 0⟩, ⟨0, 0⟩⟩ ⟨2147483649, 0⟩ = none :=
  ⟨rfl, rfl⟩

/-- C4: the claim asks for a typed error naming the offending line index
whenever span.end.line ≥ lines.length.  The code does no such validation:
at lines = ["a"] and span (0,0)-(1,0) with a zero window it renders
normally, silently dropping the marker recorded for the out-of-range line 1
(and for other inputs it panics inside the marker loop instead). -/
theorem c4_out_of_range_no_error :
    code_frame ["a"] ⟨⟨0, 0⟩, ⟨1, 0⟩⟩ ⟨0, 0⟩ = some "> 0 | a\n    | ^ " :=
  rfl

/-- C5: the claim asks for an EmptySource error on an empty lines sequence.
The code instead computes the window [0, 0) and returns the empty string. -/
theorem c5_empty_source_no_error :
    code_frame [] ⟨⟨0, 0⟩, ⟨0, 0⟩⟩ ⟨0, 0⟩ = some "" :=
  rfl

/-! ## The marker map (C3) -/

theorem optMap_eq_map (f : Nat → Option (Nat × Nat × Nat)) (g : Nat → Nat × Nat × Nat)
    (l : List Nat) (h : ∀ i ∈ l, f i = some (g i)) : optMap f l = some (l.map g) := by
  induction l with
  | nil => rfl
  | cons a t ih =>
    simp only [optMap, h a (List.mem_cons_self a t),
      ih (fun i hi => h i (List.mem_cons_of_mem a hi)), List.map_cons, Option.map_some']

theorem lookup_map_addkey (g : Nat → Nat × Nat) (sl k : Nat) (l : List Nat) :
    List.lookup k (l.map (fun i => (i + sl, g i))) =
      if sl ≤ k ∧ (k - sl) ∈ l then some (g (k - sl)) else none := by
  induction l with
  | nil => simp
  | cons a t ih =>
    simp only [List.map_cons, List.lookup_cons]
    by_cases hk : k = a + sl
    · have hbeq : (k == a + sl) = true := by simp [hk]
      rw [hbeq]
      have hc : sl ≤ k ∧ (k - sl) ∈ a :: t := ⟨by omega, by
        have : k - sl = a := by omega
        rw [this]; exact List.mem_cons_self a t⟩
      rw [if_pos hc]
      have : k - sl = a := by omega
      rw [this]
    · have hbeq : (k == a + sl) = false := by simp [hk]
      rw [hbeq]
      show List.lookup k (t.map (fun i => (i + sl, g i))) = _
      rw [ih]
      by_cases h1 : sl ≤ k ∧ (k - sl) ∈ t
      · rw [if_pos h1, if_pos ⟨h1.1, List.mem_cons_of_mem a h1.2⟩]
      · rw [if_neg h1, if_neg ?_]
        rintro ⟨hle, hm⟩
        rcases List.mem_cons.mp hm with hm1 | hm2
        · exact hk (by omega)
        · exact h1 ⟨hle, hm2⟩

theorem marker_entries_multiline (lines : List String) (sl sc ec d : Nat) (hdpos : 0 < d)
    (s0 : String) (hs0 : lines[sl]? = some s0)
    (hmid : ∀ i, 0 < i → i < d → i + sl < lines.length) :
    marker_entries lines sl sc ec d = some ((List.range (d + 1)).map
      (fun i => (i + sl,
        if i = 0 then (sc, usub s0.length sc)
        else if i = d then (0, ec)
        else (0, (lines[i + sl]?.getD "").length)))) := by
  simp only [marker_entries]
  rw [if_pos hdpos]
  apply optMap_eq_map
  intro i hi
  rw [List.mem_range] at hi
  by_cases hi0 : i = 0
  · subst hi0
    simp [hs0]
  · by_cases hid : i = d
    · subst hid
      simp [hi0]
    · obtain ⟨s, hs⟩ : ∃ s, lines[i + sl]? = some s :=
        ⟨_, List.getElem?_eq_getElem (hmid i (by omega) (by omega))⟩
      simp [hi0, hid, hs]

/-- C3: for a multi-line span (start.line < end.line, columns within their
lines), the marker map assigns (start.column, length(first) − start.column)
to the first line, (0, end.column) to the last line, (0, length) to each
interior line, and nothing to any line outside [start.line, end.line]. -/
theorem c3_multiline_markers (lines : List String) (sl sc el ec la lb : Nat)
    (ml : MarkerLines) (s0 : String)
    (hlt : sl < el) (h2 : el < lines.length) (hu : el < 2 ^ 64)
    (hs0 : lines[sl]? = some s0) (hcol : sc ≤ s0.length) (hlen0 : s0.length < 2 ^ 64)
    (hml : marker_lines lines ⟨⟨sl, sc⟩, ⟨el, ec⟩⟩ ⟨la, lb⟩ = some ml) :
    List.lookup sl ml.marker_lines = some (sc, s0.length - sc) ∧
      List.lookup el ml.marker_lines = some (0, ec) ∧
      (∀ k s, sl < k → k < el → lines[k]? = some s →
        List.lookup k ml.marker_lines = some (0, s.length)) ∧
      (∀ k, k < sl ∨ el < k → List.lookup k ml.marker_lines = none) := by
  obtain ⟨-, -, hent⟩ := marker_lines_start_end _ _ _ _ hml
  have hent2 : marker_entries lines sl sc ec (usub el sl) = some ml.marker_lines := hent
  rw [usub_eq (Nat.le_of_lt hlt) (by omega)] at hent2
  rw [marker_entries_multiline lines sl sc ec (el - sl) (by omega) s0 hs0
    (fun i hi1 hi2 => by omega)] at hent2
  have hmm : ml.marker_lines = (List.range (el - sl + 1)).map
      (fun i => (i + sl,
        if i = 0 then (sc, usub s0.length sc)
        else if i = el - sl then (0, ec)
        else (0, (lines[i + sl]?.getD "").length))) :=
    (Option.some_inj.mp hent2).symm
  refine ⟨?_, ?_, ?_, ?_⟩
  · rw [hmm, lookup_map_addkey]
    rw [if_pos ⟨Nat.le_refl sl, List.mem_range.mpr (by omega)⟩]
    rw [Nat.sub_self]
    simp [usub_eq hcol (by omega)]
  · rw [hmm, lookup_map_addkey]
    rw [if_pos ⟨by omega, List.mem_range.mpr (by omega)⟩]
    have hne : el - sl ≠ 0 := by omega
    simp [hne]
  · intro k s hk1 hk2 hks
    rw [hmm, lookup_map_addkey]
    rw [if_pos ⟨by omega, List.mem_range.mpr (by omega)⟩]
    have hne0 : k - sl ≠ 0 := by omega
    have hned : k - sl ≠ el - sl := by omega
    simp only [hne0, hned, if_false]
    rw [show k - sl + sl = k by omega, hks]
    rfl
  · intro k hk
    rw [hmm, lookup_map_addkey]
    rw [if_neg ?_]
    rintro ⟨hle, hmem⟩
    rw [List.mem_range] at hmem
    omega

/-- Witness for c3_multiline_markers at lines = ["abcd","ef","ghi"], span
(0,1)-(2,2): first line marker (1, 4 − 1), last line marker (0, 2). -/
theorem c3_multiline_markers_witness :
    List.lookup 0 (MarkerLines.mk 0 3 [(0, (1, 3)), (1, (0, 2)), (2, (0, 2))]).marker_lines =
        some (1, 3) ∧
      List.lookup 2 (MarkerLines.mk 0 3 [(0, (1, 3)), (1, (0, 2)), (2, (0, 2))]).marker_lines =
        some (0, 2) :=
  ⟨(c3_multiline_markers ["abcd", "ef", "ghi"] 0 1 2 2 0 1 ⟨0, 3, [(0, (1, 3)), (1, (0, 2)), (2, (0, 2))]⟩
      "abcd" (by decide) (by decide) (by decide) rfl (by decide) (by decide) rfl).1,
    (c3_multiline_markers ["abcd", "ef", "ghi"] 0 1 2 2 0 1 ⟨0, 3, [(0, (1, 3)), (1, (0, 2)), (2, (0, 2))]⟩
      "abcd" (by decide) (by decide) (by decide) rfl (by decide) (by decide) rfl).2.1⟩

/-! ## Facts about rendered rows: digits, separators, carets (C2, C6, C8, C10) -/

theorem digitChar_isDigit (d : Nat) (h : d < 10) : (Nat.digitChar d).isDigit = true := by
  interval_cases d <;> decide

theorem toDigitsCore_isDigit (fuel : Nat) :
    ∀ (n : Nat) (acc : List Char), (∀ c ∈ acc, c.isDigit = true) →
      ∀ c ∈ Nat.toDigitsCore 10 fuel n acc, c.isDigit = true := by
  induction fuel with
  | zero =>
    intro n acc hacc c hc
    exact hacc c hc
  | succ f ih =>
    intro n acc hacc c hc
    rw [Nat.toDigitsCore] at hc
    have hd : ∀ c ∈ (Nat.digitChar (n % 10) :: acc), c.isDigit = true := by
      intro c hc2
      rcases List.mem_cons.mp hc2 with h1 | h2
      · rw [h1]; exact digitChar_isDigit _ (Nat.mod_lt _ (by decide))
      · exact hacc c h2
    by_cases h10 : n / 10 = 0
    · rw [if_pos h10] at hc
      exact hd c hc
    · rw [if_neg h10] at hc
      exact ih (n / 10) _ hd c hc

theorem repr_data_isDigit (n : Nat) : ∀ c ∈ (Nat.repr n).data, c.isDigit = true := by
  intro c hc
  have hr : (Nat.repr n).data = Nat.toDigits 10 n := rfl
  rw [hr, Nat.toDigits] at hc
  exact toDigitsCore_isDigit (n + 1) n [] (by intro c hc; cases hc) c hc

theorem toDigitsCore_ne_nil (fuel : Nat) :
    ∀ (n : Nat) (acc : List Char), acc ≠ [] → Nat.toDigitsCore 10 fuel n acc ≠ [] := by
  induction fuel with
  | zero => intro n acc h; rw [Nat.toDigitsCore]; exact h
  | succ f ih =>
    intro n acc h
    rw [Nat.toDigitsCore]
    by_cases h10 : n / 10 = 0
    · rw [if_pos h10]; exact List.cons_ne_nil _ _
    · rw [if_neg h10]; exact ih (n / 10) _ (List.cons_ne_nil _ _)

theorem repr_data_ne_nil (n : Nat) : (Nat.repr n).data ≠ [] := by
  have hr : (Nat.repr n).data = Nat.toDigits 10 n := rfl
  rw [hr, Nat.toDigits, Nat.toDigitsCore]
  by_cases h10 : n / 10 = 0
  · rw [if_pos h10]; exact List.cons_ne_nil _ _
  · rw [if_neg h10]; exact toDigitsCore_ne_nil n (n / 10) _ (List.cons_ne_nil _ _)

theorem strRepeat_data (c : Char) (n : Nat) : (strRepeat c n).data = List.replicate n c := rfl

theorem takeWhile_all_append (p : Char → Bool) (l1 : List Char) (c : Char) (l2 : List Char)
    (h1 : ∀ x ∈ l1, p x = true) (h2 : p c = false) :
    List.takeWhile p (l1 ++ c :: l2) = l1 := by
  induction l1 with
  | nil => simp [List.takeWhile_cons, h2]
  | cons a t ih =>
    rw [List.cons_append, List.takeWhile_cons, h1 a (List.mem_cons_self a t)]
    rw [if_pos rfl, ih (fun x hx => h1 x (List.mem_cons_of_mem a hx))]

theorem findIdx_false_append (p : Char → Bool) (l1 l2 : List Char)
    (h : ∀ x ∈ l1, p x = false) :
    List.findIdx p (l1 ++ l2) = l1.length + List.findIdx p l2 := by
  induction l1 with
  | nil => simp
  | cons a t ih =>
    rw [List.cons_append, List.findIdx_cons, h a (List.mem_cons_self a t)]
    rw [ih (fun x hx => h x (List.mem_cons_of_mem a hx))]
    simp only [cond_false, List.length_cons]
    omega

theorem sepIdx_gutter (g : List Char) (rest : List Char)
    (hg : ∀ x ∈ g, (fun c => decide (c = '|')) x = false) :
    List.findIdx (fun c => c = '|') (g ++ ([' ', '|', ' '] ++ rest)) = g.length + 1 := by
  rw [findIdx_false_append _ _ _ hg]
  rfl

theorem repr_data_not_bar (n : Nat) :
    ∀ c ∈ (Nat.repr n).data, (fun c => decide (c = '|')) c = false := by
  intro c hc
  have hd := repr_data_isDigit n c hc
  apply decide_eq_false
  intro he
  rw [he] at hd
  exact absurd hd (by decide)

theorem sepIdx_content (pre : String) (n : Nat) (line : String)
    (hpre : pre.data = ['>', ' '] ∨ pre.data = [' ', ' ']) :
    sepIdx (pre ++ Nat.repr n ++ " | " ++ line) = 3 + (Nat.repr n).length := by
  have hsp : " | ".data = [' ', '|', ' '] := rfl
  unfold sepIdx
  have hd : (pre ++ Nat.repr n ++ " | " ++ line).data
      = (pre.data ++ (Nat.repr n).data) ++ ([' ', '|', ' '] ++ line.data) := by
    simp [String.data_append, hsp, List.append_assoc]
  rw [hd, sepIdx_gutter]
  · simp only [List.length_append]
    have hl2 : pre.data.length = 2 := by rcases hpre with h | h <;> rw [h] <;> rfl
    rw [hl2, show (Nat.repr n).data.length = (Nat.repr n).length from rfl]
    omega
  · intro x hx
    rcases List.mem_append.mp hx with hx1 | hx2
    · have hor : x = '>' ∨ x = ' ' := by
        rcases hpre with h | h <;> rw [h] at hx1 <;> simp at hx1 <;> tauto
      rcases hor with h | h <;> rw [h] <;> decide
    · exact repr_data_not_bar n x hx2

theorem sepIdx_marker_row (maxw : Nat) (n : Nat) (tail2 : String) :
    sepIdx ("  " ++ strRepeat ' ' (usub maxw (Nat.repr n).length) ++ " | " ++ tail2)
      = 3 + usub maxw (Nat.repr n).length := by
  have hsp : " | ".data = [' ', '|', ' '] := rfl
  unfold sepIdx
  have hd : ("  " ++ strRepeat ' ' (usub maxw (Nat.repr n).length) ++ " | " ++ tail2).data
      = ("  ".data ++ List.replicate (usub maxw (Nat.repr n).length) ' ')
        ++ ([' ', '|', ' '] ++ tail2.data) := by
    simp [String.data_append, hsp, strRepeat_data, List.append_assoc]
  rw [hd, sepIdx_gutter]
  · simp only [List.length_append, List.length_replicate]
    rw [show ("  ".data).length = 2 from rfl]
    omega
  · intro x hx
    rcases List.mem_append.mp hx with hx1 | hx2
    · rcases List.mem_cons.mp hx1 with h | h
      · rw [h]; decide
      · rcases List.mem_cons.mp h with h' | h'
        · rw [h']; decide
        · cases h'
    · rw [List.eq_of_mem_replicate hx2]; decide

/-- C6: for every line carrying a marker entry (start_column, length), the
rendered marker row contains exactly max(length, 1) caret characters; in
particular a zero-width marker (length 0) still renders exactly one caret. -/
theorem c6_marker_caret_count (maxw : Nat) (markers : List (Nat × Nat × Nat)) (n : Nat)
    (line : String) (sc l : Nat) (hm : List.lookup n markers = some (sc, l)) :
    (frame_line_rows maxw markers n line).tail.map (fun r => r.data.count '^') = [max l 1] := by
  simp only [frame_line_rows, hm]
  simp only [List.tail_cons, List.map_cons, List.map_nil]
  congr 1
  simp [String.data_append, strRepeat_data, List.count_append, List.count_replicate]

/-- Witness for c6_marker_caret_count: a zero-width marker (2, 0) on line 5
renders a marker row with exactly one caret. -/
theorem c6_marker_caret_count_witness :
    (frame_line_rows 3 [(5, (2, 0))] 5 "abcde").tail.map (fun r => r.data.count '^') = [1] :=
  c6_marker_caret_count 3 [(5, (2, 0))] 5 "abcde" 2 0 rfl

/-- C10: for every marked displayed line whose printed number has fewer
digits than the gutter width, the marker row ends in trailing whitespace:
the gutter padding string is appended after the caret characters. -/
theorem c10_marker_trailing_space (maxw : Nat) (markers : List (Nat × Nat × Nat)) (n : Nat)
    (line : String) (sc l : Nat) (hm : List.lookup n markers = some (sc, l))
    (hw : (Nat.repr n).length < maxw) (hU : maxw < 2 ^ 64) :
    ((frame_line_rows maxw markers n line).getLast?.bind (fun r => r.data.getLast?)) = some ' ' := by
  simp only [frame_line_rows, hm]
  obtain ⟨k, hk⟩ : ∃ k, usub maxw (Nat.repr n).length = k + 1 :=
    ⟨maxw - (Nat.repr n).length - 1, by rw [usub_eq (Nat.le_of_lt hw) (by omega)]; omega⟩
  rw [hk]
  simp only [List.getLast?, Option.bind]
  rw [show List.getLast ["> " ++ Nat.repr n ++ " | " ++ line,
      "  " ++ strRepeat ' ' (k + 1) ++ " | " ++
        (strRepeat ' ' sc ++ strRepeat '^' (max l 1) ++ strRepeat ' ' (k + 1))]
      (by simp) = "  " ++ strRepeat ' ' (k + 1) ++ " | " ++
        (strRepeat ' ' sc ++ strRepeat '^' (max l 1) ++ strRepeat ' ' (k + 1)) from rfl]
  simp [String.data_append, strRepeat_data, List.replicate_succ', ← List.append_assoc,
    List.getLast?_concat]

/-- Witness for c10_marker_trailing_space: gutter width 3, line number 5
(one digit), marker (2, 0). -/
theorem c10_marker_trailing_space_witness :
    ((frame_line_rows 3 [(5, (2, 0))] 5 "abcde").getLast?.bind (fun r => r.data.getLast?))
      = some ' ' :=
  c10_marker_trailing_space 3 [(5, (2, 0))] 5 "abcde" 2 0 rfl (by decide) (by decide)

/-- C2 (amended): the separator is NOT at one common column.  A content row
is rendered with no padding between the number and the separator, so its
separator bar sits at character index 3 + digitCount(n) (the separator
string begins at column 2 + digitCount(n)), while a marker row has the
computed padding in its gutter, putting its bar at index
3 + (gutterWidth − digitCount(n)); the padding appears only in marker rows,
after the number would have been.  Rows align only when these coincide. -/
theorem c2_separator_columns (maxw : Nat) (markers : List (Nat × Nat × Nat)) (n : Nat)
    (line : String) :
    (frame_line_rows maxw markers n line).map sepIdx =
      if (List.lookup n markers).isSome then
        [3 + (Nat.repr n).length, 3 + usub maxw (Nat.repr n).length]
      else [3 + (Nat.repr n).length] := by
  cases hlk : List.lookup n markers with
  | none =>
    simp only [frame_line_rows, hlk, Option.isSome_none, Bool.false_eq_true, if_false,
      List.map_cons, List.map_nil]
    rw [sepIdx_content "  " n line (Or.inr rfl)]
  | some v =>
    obtain ⟨sc, l⟩ := v
    simp only [frame_line_rows, hlk, Option.isSome_some, if_true, List.map_cons, List.map_nil]
    rw [sepIdx_content "> " n line (Or.inl rfl), sepIdx_marker_row]

/-- C2 counterexample: an eleven-line file with span (9,0)-(10,1) and window
(0,1) displays lines 9 and 10; the separator bars of the four rendered rows
sit at indices 4, 5, 5, 4 — not at one common column. -/
theorem c2_separator_columns_cex :
    (code_frame ["a", "b", "c", "d", "e", "f", "g", "h", "i", "j", "k"]
        ⟨⟨9, 0⟩, ⟨10, 1⟩⟩ ⟨0, 1⟩).map
      (fun s => decide (∀ r1 ∈ splitLines s, ∀ r2 ∈ splitLines s, sepIdx r1 = sepIdx r2))
      = some false ∧
    (code_frame ["a", "b", "c", "d", "e", "f", "g", "h", "i", "j", "k"]
        ⟨⟨9, 0⟩, ⟨10, 1⟩⟩ ⟨0, 1⟩).map
      (fun s => (splitLines s).map sepIdx) = some [4, 5, 5, 4] :=
  ⟨by decide, rfl⟩

/-! ## Joining rows and the gutter numbers (C8) -/

theorem frame_line_rows_ne_nil (maxw : Nat) (m : List (Nat × Nat × Nat)) (n : Nat)
    (line : String) : frame_line_rows maxw m n line ≠ [] := by
  cases h : List.lookup n m with
  | none => simp [frame_line_rows, h]
  | some v => obtain ⟨sc, l⟩ := v; simp [frame_line_rows, h]

theorem join_lines_cons_cons (a b : String) (t : List String) :
    join_lines (a :: b :: t) = a ++ "\n" ++ join_lines (b :: t) := rfl

theorem join_lines_singleton (s : String) : join_lines [s] = s := rfl

theorem join_append (l1 l2 : List String) (h1 : l1 ≠ []) (h2 : l2 ≠ []) :
    join_lines (l1 ++ l2) = join_lines l1 ++ "\n" ++ join_lines l2 := by
  induction l1 with
  | nil => exact absurd rfl h1
  | cons a t ih =>
    cases t with
    | nil =>
      cases l2 with
      | nil => exact absurd rfl h2
      | cons b t2 => rfl
    | cons c t3 =>
      rw [List.cons_append, show ((c :: t3) ++ l2) = c :: (t3 ++ l2) from rfl]
      rw [join_lines_cons_cons]
      rw [show (c :: (t3 ++ l2)) = (c :: t3) ++ l2 from rfl]
      rw [ih (List.cons_ne_nil c t3)]
      rw [join_lines_cons_cons]
      simp [String.append_assoc]

theorem frame_line_eq_join (maxw : Nat) (m : List (Nat × Nat × Nat)) (n : Nat)
    (line : String) : frame_line maxw m n line = join_lines (frame_line_rows maxw m n line) := by
  cases h : List.lookup n m with
  | none => simp [frame_line, frame_line_rows, h, join_lines]
  | some v =>
    obtain ⟨sc, l⟩ := v
    simp only [frame_line, frame_line_rows, h]
    rw [join_lines_cons_cons, join_lines_singleton]
    apply String.ext
    simp [String.data_append, List.append_assoc]

theorem join_lines_map {α : Type} (f : α → List String) (g : α → String)
    (hfg : ∀ a, g a = join_lines (f a)) (hne : ∀ a, f a ≠ []) (l : List α) :
    join_lines (l.map g) = join_lines (l.flatMap f) := by
  induction l with
  | nil => rfl
  | cons a t ih =>
    rw [List.map_cons, List.flatMap_cons]
    cases t with
    | nil => simp [hfg a, join_lines_singleton]
    | cons b t2 =>
      have htne : (b :: t2).flatMap f ≠ [] := by
        rw [List.flatMap_cons]
        intro hemp
        rcases List.append_eq_nil.mp hemp with ⟨hb, -⟩
        exact hne b hb
      rw [List.map_cons, join_lines_cons_cons, ← List.map_cons, ih]
      rw [join_append (f a) _ (hne a) htne, hfg a]

theorem code_frame_eq_rows (lines : List String) (loc : NodeLocation)
    (opts : CodeFrameOptions) :
    code_frame lines loc opts = (code_frame_rows lines loc opts).map join_lines := by
  cases hml : marker_lines lines loc opts with
  | none => simp [code_frame, code_frame_rows, hml]
  | some ml =>
    simp only [code_frame, code_frame_rows, hml]
    by_cases hc : ml.start ≤ ml.end_ ∧ ml.end_ ≤ lines.length
    · rw [if_pos hc, if_pos hc, Option.map_some']
      congr 1
      exact join_lines_map _ _
        (fun p => frame_line_eq_join _ _ _ _)
        (fun p => frame_line_rows_ne_nil _ _ _ _) _
    · rw [if_neg hc, if_neg hc]
      rfl

theorem filterMap_flatMap_own {α : Type} (l : List α) (f : α → List String)
    (g : String → Option String) :
    (l.flatMap f).filterMap g = l.flatMap (fun a => (f a).filterMap g) := by
  induction l with
  | nil => rfl
  | cons a t ih => rw [List.flatMap_cons, List.filterMap_append, ih, List.flatMap_cons]

theorem flatMap_eq_map_of_singleton {α β : Type} (l : List α) (F : α → List β) (G : α → β)
    (h : ∀ a, F a = [G a]) : l.flatMap F = l.map G := by
  induction l with
  | nil => rfl
  | cons a t ih => rw [List.flatMap_cons, List.map_cons, h a, ih]; rfl

theorem gutterDigits_content (pre : String) (n : Nat) (line : String)
    (hpre : pre.data = ['>', ' '] ∨ pre.data = [' ', ' ']) :
    gutterDigits (pre ++ Nat.repr n ++ " | " ++ line) = some (Nat.repr n) := by
  unfold gutterDigits
  have hd : (pre ++ Nat.repr n ++ " | " ++ line).data
      = pre.data ++ ((Nat.repr n).data ++ (' ' :: '|' :: (' ' :: line.data))) := by
    simp [String.data_append, show " | ".data = [' ', '|', ' '] from rfl, List.append_assoc]
  rw [hd]
  have hdrop : (pre.data ++ ((Nat.repr n).data ++ (' ' :: '|' :: (' ' :: line.data)))).drop 2
      = (Nat.repr n).data ++ (' ' :: '|' :: (' ' :: line.data)) := by
    rcases hpre with h | h <;> rw [h] <;> rfl
  rw [hdrop]
  rw [takeWhile_all_append Char.isDigit ((Nat.repr n).data) ' ' _ (repr_data_isDigit n)
    (by decide)]
  have hne : (Nat.repr n).data.isEmpty = false := by
    cases hrepr : (Nat.repr n).data with
    | nil => exact absurd hrepr (repr_data_ne_nil n)
    | cons c t => rfl
  simp only [hne, Bool.false_eq_true, if_false]

theorem gutterDigits_marker_row (p0 : Nat) (tail2 : String) :
    gutterDigits ("  " ++ strRepeat ' ' p0 ++ " | " ++ tail2) = none := by
  unfold gutterDigits
  have hd : ("  " ++ strRepeat ' ' p0 ++ " | " ++ tail2).data
      = [' ', ' '] ++ (List.replicate p0 ' ' ++ (' ' :: '|' :: (' ' :: tail2.data))) := by
    simp [String.data_append, strRepeat_data,
      show " | ".data = [' ', '|', ' '] from rfl, List.append_assoc]
  rw [hd]
  rw [show ([' ', ' '] ++ (List.replicate p0 ' ' ++ (' ' :: '|' :: (' ' :: tail2.data)))).drop 2
    = List.replicate p0 ' ' ++ (' ' :: '|' :: (' ' :: tail2.data)) from rfl]
  cases p0 with
  | zero => rfl
  | succ k =>
    rw [List.replicate_succ, List.cons_append, List.takeWhile_cons]
    rw [show (Char.isDigit ' ') = false from rfl]
    rfl

theorem gutter_block (maxw : Nat) (m : List (Nat × Nat × Nat)) (n : Nat) (line : String) :
    (frame_line_rows maxw m n line).filterMap gutterDigits = [Nat.repr n] := by
  cases h : List.lookup n m with
  | none =>
    simp only [frame_line_rows, h, List.filterMap_cons,
      gutterDigits_content "  " n line (Or.inr rfl)]
    rfl
  | some v =>
    obtain ⟨sc, l⟩ := v
    simp only [frame_line_rows, h, List.filterMap_cons,
      gutterDigits_content "> " n line (Or.inl rfl), gutterDigits_marker_row]
    rfl

/-- C8: the numbers printed in the gutters of the rendered rows are exactly
the zero-based indices of the display range, in order: the digit runs found
in the output rows are the decimal representations of start, start + 1, ...,
end − 1 — the same indices that key the marker map — with no one-based
adjustment, so the first line of the source prints as 0. -/
theorem c8_zero_based_gutter (lines : List String) (loc : NodeLocation) (opts : CodeFrameOptions)
    (ml : MarkerLines) (rows : List String)
    (hml : marker_lines lines loc opts = some ml)
    (hrows : code_frame_rows lines loc opts = some rows) :
    code_frame lines loc opts = some (join_lines rows) ∧
      rows.filterMap gutterDigits = (List.range' ml.start (ml.end_ - ml.start)).map Nat.repr := by
  constructor
  · rw [code_frame_eq_rows, hrows, Option.map_some']
  · simp only [code_frame_rows, hml] at hrows
    by_cases hc : ml.start ≤ ml.end_ ∧ ml.end_ ≤ lines.length
    · rw [if_pos hc] at hrows
      obtain heq := Option.some_inj.mp hrows
      rw [← heq]
      rw [filterMap_flatMap_own]
      rw [flatMap_eq_map_of_singleton _
        (fun p : Nat × String => List.filterMap gutterDigits
          (frame_line_rows ((Nat.repr ml.end_).length + 1) ml.marker_lines (p.1 + ml.start) p.2))
        (fun p => Nat.repr (p.1 + ml.start)) (fun p => gutter_block _ _ _ _)]
      rw [show (fun p : Nat × String => Nat.repr (p.1 + ml.start))
        = (fun i => Nat.repr (i + ml.start)) ∘ Prod.fst from rfl]
      rw [← List.map_map, List.enum_map_fst]
      have hlen : ((lines.drop ml.start).take (ml.end_ - ml.start)).length
          = ml.end_ - ml.start := by
        rw [List.length_take, List.length_drop]
        omega
      rw [hlen, List.range'_eq_map_range, List.map_map]
      apply List.map_congr_left
      intro i hi
      simp [Nat.add_comm]
    · rw [if_neg hc] at hrows
      cases hrows

/-- Witness for c8_zero_based_gutter at lines = ["a","b","c"], span
(1,0)-(1,1), window (1,2): gutters read 0, 1, 2. -/
theorem c8_zero_based_gutter_witness :
    code_frame ["a", "b", "c"] ⟨⟨1, 0⟩, ⟨1, 1⟩⟩ ⟨1, 2⟩
        = some (join_lines ["  0 | a", "> 1 | b", "    | ^ ", "  2 | c"]) ∧
      (["  0 | a", "> 1 | b", "    | ^ ", "  2 | c"] : List String).filterMap gutterDigits
        = (List.range' 0 3).map Nat.repr :=
  c8_zero_based_gutter ["a", "b", "c"] ⟨⟨1, 0⟩, ⟨1, 1⟩⟩ ⟨1, 2⟩ ⟨0, 3, [(1, (0, 1))]⟩
    ["  0 | a", "> 1 | b", "    | ^ ", "  2 | c"] rfl rfl
